import Mathlib

/-!
Shallow embedding of the Smartsheet remote MCP server
(source: src/remote-server.ts) and proofs about its
auth middleware, API-client cache, JSON-RPC dispatch and
tool-definition schema projection.

JavaScript values arising from parsed JSON bodies and from property
access are modelled by the inductive type JSVal; `undefined` is a
separate constructor since the router distinguishes absent properties
from present `null` ones.  Machine details not exercised by the server
(floating point numbers, prototype chains) are not modelled; JSON
numbers appearing in the claims are integers.
-/

namespace SmarMcp

/-- A JavaScript value as seen by the request handlers: parsed JSON
plus the distinguished `undefined`. -/
inductive JSVal where
  | undefined : JSVal
  | null : JSVal
  | bool : Bool → JSVal
  | num : Int → JSVal
  | str : String → JSVal
  | arr : List JSVal → JSVal
  | obj : List (String × JSVal) → JSVal

/-- JavaScript truthiness: `undefined`, `null`, `false`, `0` and the
empty string are falsy; every object and array is truthy. -/
def truthy : JSVal → Bool
  | .undefined => false
  | .null => false
  | .bool b => b
  | .num n => n != 0
  | .str s => s != ""
  | .arr _ => true
  | .obj _ => true

/-- `typeof v === 'object'`: true for objects, arrays and `null`. -/
def isObjTy : JSVal → Bool
  | .null => true
  | .arr _ => true
  | .obj _ => true
  | _ => false

/-- `Array.isArray v`. -/
def isArray : JSVal → Bool
  | .arr _ => true
  | _ => false

/-- First binding of a key in an object field list (JS objects hold
each key at most once, so first-match equals the unique match). -/
def lookupField : List (String × JSVal) → String → Option JSVal
  | [], _ => none
  | (k, v) :: rest, s => if k = s then some v else lookupField rest s

/-- Property access `v[k]` (and, on possibly nullish `v`, the optional
chain `v?.[k]`): objects look the key up, everything else yields
`undefined`.  The handlers only dereference non-nullish values or use
optional chaining, so the nullish cases (a TypeError in JS) are never
reached with a meaning that matters. -/
def jsGet : JSVal → String → JSVal
  | .obj fs, k => (lookupField fs k).getD .undefined
  | _, _ => .undefined

/-- The `in` operator restricted to how the server uses it:
membership of a key among an object literal's fields. -/
def hasKey : JSVal → String → Bool
  | .obj fs, k => (lookupField fs k).isSome
  | _, _ => false

/-- `a || b` on JS values. -/
def jsOr (a b : JSVal) : JSVal := if truthy a then a else b

/-- Strict equality `v === s` against a string literal, the only form
of `===` the router uses on request data. -/
def strictEqStr (v : JSVal) (s : String) : Bool :=
  match v with
  | .str a => a = s
  | _ => false

/-- `a || b` where `a` is a string-or-undefined (a header value) and
`b` a string default, as in `apiEndpoint || 'default'`. -/
def jsOrStr : Option String → String → String
  | none, d => d
  | some s, d => if s = "" then d else s

mutual

/-- Template-literal stringification of the values the server
interpolates into messages.  Parsed-JSON values only: arrays join
their stringified elements with commas (with nullish elements shown
as empty), plain objects print as the usual object tag. -/
def jsTemplate : JSVal → String
  | .undefined => "undefined"
  | .null => "null"
  | .bool b => if b then "true" else "false"
  | .num n => toString n
  | .str s => s
  | .obj _ => "[object Object]"
  | .arr xs => jsTemplateList xs

/-- Join of array elements for template stringification. -/
def jsTemplateList : List JSVal → String
  | [] => ""
  | x :: xs =>
    let s := match x with
      | .null => ""
      | .undefined => ""
      | v => jsTemplate v
    match xs with
    | [] => s
    | _ => s ++ "," ++ jsTemplateList xs
end

/-!
## API client cache (remote-server.ts lines 131-153)

`const apiInstances: Map<string, SmartsheetAPI> = new Map()` is
modelled as a list of (key, handle) pairs in insertion order — a JS
`Map` iterates in insertion order and holds each key at most once.  A
`SmartsheetAPI` instance is identified by the numeric handle that was
fresh when it was constructed; the constructor arguments play no role
in any claim about the cache.
-/

/-- Cache of API client instances: bindings in insertion order plus a
supply of fresh instance handles. -/
structure CacheState where
  entries : List (String × Nat)
  nextId : Nat

/-- The initial, empty cache. -/
def initialCache : CacheState := ⟨[], 0⟩

/-- `apiInstances.get key` — the binding, if present. -/
def lookupKey : List (String × Nat) → String → Option Nat
  | [], _ => none
  | (k, v) :: rest, s => if k = s then some v else lookupKey rest s

/-- `apiInstances.delete key` — removes the binding for the key (a JS
Map holds it at most once, so removing the first occurrence is
exact). -/
def eraseKey : List (String × Nat) → String → List (String × Nat)
  | [], _ => []
  | (k, v) :: rest, s => if k = s then rest else (k, v) :: eraseKey rest s

/-- The credential key: the template literal
`apiKey ++ ':' ++ (apiEndpoint || 'default')` of
remote-server.ts line 136. -/
def credentialKey (apiKey : String) (apiEndpoint : Option String) : String :=
  apiKey ++ ":" ++ jsOrStr apiEndpoint "default"

/-- `getApiInstance` of remote-server.ts lines 135-153: return the
cached instance for the credential key if present; otherwise create a
fresh one, append it, and if the map then holds more than 100 entries
delete the first (oldest inserted) key — guarded, as in the source, by
the truthiness of that first key. -/
def getApiInstance (st : CacheState) (apiKey : String)
    (apiEndpoint : Option String) : Nat × CacheState :=
  let key := credentialKey apiKey apiEndpoint
  match lookupKey st.entries key with
  | some api => (api, st)
  | none =>
    let api := st.nextId
    let es := st.entries ++ [(key, api)]
    let es' :=
      if es.length > 100 then
        match es.head? with
        | some (firstKey, _) =>
          if firstKey = "" then es else eraseKey es firstKey
        | none => es
      else es
    (api, { entries := es', nextId := st.nextId + 1 })

/-- A whole traffic history: fold a sequence of
(apiKey, endpoint-header) requests through the cache, starting
empty — every `tools/call` that reaches `executeToolCall` performs
exactly one such step, and no other code touches the cache. -/
def runCalls (calls : List (String × Option String)) : CacheState :=
  calls.foldl (fun st c => (getApiInstance st c.1 c.2).2) initialCache

/-!
## Auth middleware (remote-server.ts lines 67-129)

Modelled for a `POST /mcp` request, the only route and method the
middleware inspects.  The `x-secret-key` header is `none` when absent
and `some s` when present with value `s` (Node keeps empty header
values, so `some ""` is reachable).  The body is the parsed JSON
value.  `.next` means the middleware falls through to the route
handler.
-/

/-- Outcome of the auth middleware: fall through, or answer with an
HTTP status and a JSON-RPC error body carrying the echoed id. -/
inductive AuthResult where
  | next : AuthResult
  | reject : Nat → Int → String → JSVal → AuthResult

/-- The JSON-RPC error code of a rejection, if any. -/
def AuthResult.errCode : AuthResult → Option Int
  | .next => none
  | .reject _ c _ _ => some c

/-- The error message of a rejection, if any. -/
def AuthResult.errMsg : AuthResult → Option String
  | .next => none
  | .reject _ _ m _ => some m

/-- The HTTP status of a rejection, if any. -/
def AuthResult.status : AuthResult → Option Nat
  | .next => none
  | .reject s _ _ _ => some s

/-- `authMiddleware` of remote-server.ts lines 67-127, specialised to
`POST /mcp`: skip when auth is not required or no secret key is
configured; for a `tools/call` body, a falsy provided key (absent or
empty header) rejects as missing, a mismatching one rejects as
invalid; everything else falls through.  The `try`/`catch` around the
body inspection can never fire here (optional chaining cannot throw),
so it is not modelled. -/
def authMiddleware (requireAuth : Bool) (secretKey : String)
    (body : JSVal) (secretHeader : Option String) : AuthResult :=
  if !requireAuth then .next
  else if secretKey = "" then .next
  else if strictEqStr (jsGet body "method") "tools/call" then
    match secretHeader with
    | none =>
      .reject 401 (-32001) "Authentication required for tool execution"
        (jsGet body "id")
    | some providedKey =>
      if providedKey = "" then
        .reject 401 (-32001) "Authentication required for tool execution"
          (jsGet body "id")
      else if providedKey ≠ secretKey then
        .reject 401 (-32001) "Invalid authentication for tool execution"
          (jsGet body "id")
      else .next
  else .next

/-!
## Tool registration and the two registrars
(remote-server.ts lines 155-261)

The seven domain-tool modules (discussion, folder, search, sheet,
update-request, user, workspace tools) are external to this file; each
registration sweep announces, in a fixed order determined only by the
`allowDeleteTools` flag, a sequence of `server.tool(...)` calls.  A
sweep is therefore modelled as a function from the flag to the list of
announced descriptors.  A descriptor records the registration
arguments: name, description, the schema argument when the handler was
passed separately (the 4-argument form), and the handler itself, whose
invocation yields either a resolved value or a rejection message. -/

/-- One `server.tool(...)` registration as the interceptors see it:
`schema = some s` is the 4-argument form (handler passed separately),
`schema = none` the 3-argument form where the third argument is the
handler. -/
structure ToolDesc where
  name : String
  description : String
  schema : Option JSVal
  handler : JSVal → Except String JSVal

/-- The registration-argument surface of a descriptor — everything
except the handler. -/
def surface (t : ToolDesc) : String × String × Option JSVal :=
  (t.name, t.description, t.schema)

/-- Does a field value qualify for the simplified schema projection:
`value && typeof value === 'object' && 'description' in value`
(remote-server.ts line 181). -/
def qualifies (v : JSVal) : Bool :=
  truthy v && isObjTy v && hasKey v "description"

/-- The simplified property emitted for a qualifying field
(remote-server.ts lines 182-185). -/
def simplifiedProp (v : JSVal) : JSVal :=
  .obj [("type", .str "string"), ("description", jsGet v "description")]

/-- The `for (const [key, value] of Object.entries(inputSchema))` loop
of remote-server.ts lines 180-188, accumulating `properties` and
`required` in iteration order. -/
def schemaLoop (fs : List (String × JSVal)) :
    List (String × JSVal) × List String :=
  fs.foldl
    (fun acc kv =>
      if qualifies kv.2 then
        (acc.1 ++ [(kv.1, simplifiedProp kv.2)], acc.2 ++ [kv.1])
      else acc)
    ([], [])

/-- The field list of an object value (`Object.entries`); only applied
to values already known to be plain objects. -/
def objFields : JSVal → List (String × JSVal)
  | .obj fs => fs
  | _ => []

/-- `Object.keys(v).length` for the values that can reach the
empty-schema test: objects count their fields, arrays and strings
their elements, numbers and booleans have no own keys.  (On `null` or
`undefined` JS would throw, but registrations never produce those
there.) -/
def jsKeysLength : JSVal → Nat
  | .obj fs => fs.length
  | .arr xs => xs.length
  | .str s => s.length
  | _ => 0

/-- The schema simplification of the recording interceptor,
remote-server.ts lines 167-200: starting from `{}` or the supplied
schema argument, a truthy non-array object is projected field-by-field
(each qualifying field becomes a required string-typed property, the
`required` key being dropped entirely when no field qualifies, as
serialising `required: undefined` does); a keyless non-object becomes
the empty object schema; anything else is passed through unchanged. -/
def projectSchema (schema : Option JSVal) : JSVal :=
  let inputSchema := schema.getD (.obj [])
  if truthy inputSchema && isObjTy inputSchema && !isArray inputSchema then
    let pr := schemaLoop (objFields inputSchema)
    .obj ([("type", .str "object"), ("properties", .obj pr.1)] ++
      (if pr.2.length > 0 then [("required", .arr (pr.2.map .str))] else []))
  else if jsKeysLength inputSchema = 0 then
    .obj [("type", .str "object"), ("properties", .obj [])]
  else inputSchema

/-- A discovery-facing tool definition as collected by
`getToolDefinitions`. -/
structure ToolDefinition where
  name : String
  description : String
  inputSchema : JSVal

/-- What the recording interceptor pushes for one registration
(remote-server.ts line 202). -/
def recordTool (t : ToolDesc) : ToolDefinition :=
  ⟨t.name, t.description, projectSchema t.schema⟩

/-- `getToolDefinitions` of remote-server.ts lines 156-218: run the
full registration sweep against the recording interceptor, collecting
one definition per announced descriptor, in registration order, and
never invoking any handler. -/
def getToolDefinitions (sweep : Bool → List ToolDesc)
    (allowDeleteTools : Bool) : List ToolDefinition :=
  (sweep allowDeleteTools).map recordTool

/-- `executeToolCall` of remote-server.ts lines 221-261: obtain (or
create) the cached API instance for the credentials, then run the full
registration sweep with the executing interceptor, which invokes the
handler of every descriptor whose name strictly equals the requested
name (later matches overwrite `toolResult`, so the awaited outcome is
the last match's); if no descriptor matched, the call throws
`Tool not found: <name>`. -/
def executeToolCall (st : CacheState) (apiKey : String)
    (apiEndpoint : Option String) (tools : List ToolDesc)
    (toolName : JSVal) (toolArguments : JSVal) :
    Except String JSVal × CacheState :=
  let st' := (getApiInstance st apiKey apiEndpoint).2
  match (tools.filter (fun t => strictEqStr toolName t.name)).getLast? with
  | none => (.error ("Tool not found: " ++ jsTemplate toolName), st')
  | some t => (t.handler toolArguments, st')

/-!
## The POST /mcp route handler (remote-server.ts lines 302-419)
-/

/-- The request headers the `/mcp` route consumes; `none` is an absent
header, `some ""` a present-but-empty one. -/
structure Headers where
  apiKey : Option String
  endpoint : Option String
  allowDelete : Option String
  secretKey : Option String

/-- A response as `res.status(...).json(...)` produces it: HTTP
status, the `result` member if any, the `error` member's code and
message if any, and the `id` member (`JSVal.undefined` meaning the key is
absent from the serialised JSON). -/
structure JsonRpcOut where
  status : Nat
  result : Option JSVal
  errCode : Option Int
  errMsg : Option String
  id : JSVal

/-- A success response (HTTP 200). -/
def okOut (r : JSVal) (i : JSVal) : JsonRpcOut :=
  ⟨200, some r, none, none, i⟩

/-- An error response (HTTP 200 — the transport is not used to signal
RPC-level failure). -/
def errOut (c : Int) (m : String) (i : JSVal) : JsonRpcOut :=
  ⟨200, none, some c, some m, i⟩

/-- The server version, read at build time from package.json (a file
outside the modelled source); no claim depends on its value. -/
def packageVersion : String := "1.0.0"

/-- The static `initialize` result of remote-server.ts
lines 327-338. -/
def initializeResult : JSVal :=
  .obj [("protocolVersion", .str "2024-11-05"),
        ("capabilities",
          .obj [("tools", .obj []), ("prompts", .null),
                ("resources", .null)]),
        ("serverInfo",
          .obj [("name", .str "smartsheet"),
                ("version", .str packageVersion)])]

/-- JSON serialisation of one collected tool definition. -/
def toolDefinitionJson (d : ToolDefinition) : JSVal :=
  .obj [("name", .str d.name), ("description", .str d.description),
        ("inputSchema", d.inputSchema)]

/-- The `try` block of the `POST /mcp` handler, remote-server.ts
lines 304-407: validate the body shape, then dispatch on `method`.
The cache is threaded through because the `tools/call` branch may
create an API instance.  Handler results and rejections come from the
descriptors supplied by the sweep. -/
def handleMcp (sweep : Bool → List ToolDesc) (st : CacheState)
    (hdrs : Headers) (body : JSVal) : JsonRpcOut × CacheState :=
  if !truthy body || !isObjTy body then
    (errOut (-32700) "Parse error: Invalid JSON" .null, st)
  else
    let method := jsGet body "method"
    let params := jsOr (jsGet body "params") (.obj [])
    let requestId := jsGet body "id"
    if strictEqStr method "initialize" then
      (okOut initializeResult requestId, st)
    else if strictEqStr method "tools/list" then
      let allowDeleteTools := hdrs.allowDelete == some "true"
      let tools := getToolDefinitions sweep allowDeleteTools
      (okOut (.obj [("tools", .arr (tools.map toolDefinitionJson))])
        requestId, st)
    else if strictEqStr method "tools/call" then
      let allowDeleteTools := hdrs.allowDelete == some "true"
      match hdrs.apiKey with
      | none =>
        (errOut (-32602) "Missing required header: x-smartsheet-api-key"
          requestId, st)
      | some apiKey =>
        if apiKey = "" then
          (errOut (-32602) "Missing required header: x-smartsheet-api-key"
            requestId, st)
        else
          let toolName := jsGet params "name"
          let toolArguments := jsOr (jsGet params "arguments") (.obj [])
          let r := executeToolCall st apiKey hdrs.endpoint
            (sweep allowDeleteTools) toolName toolArguments
          match r.1 with
          | .ok v => (okOut v requestId, r.2)
          | .error m =>
            (errOut (-32603) ("Tool execution error: " ++ m) requestId, r.2)
    else
      (errOut (-32601) ("Method not found: " ++ jsTemplate method)
        requestId, st)

/-- The `catch` clause of the `POST /mcp` handler, remote-server.ts
lines 408-418, reached when dispatch raises: an InternalError response
whose id is `req.body?.id || null`. -/
def mcpCatchAll (body : JSVal) (errMessage : String) : JsonRpcOut :=
  errOut (-32603) ("Internal error: " ++ errMessage)
    (jsOr (jsGet body "id") .null)

/-- The full `POST /mcp` pipeline: the auth middleware first, then the
route handler. -/
def serveMcp (requireAuth : Bool) (secretKey : String)
    (sweep : Bool → List ToolDesc) (st : CacheState) (hdrs : Headers)
    (body : JSVal) : JsonRpcOut × CacheState :=
  match authMiddleware requireAuth secretKey body hdrs.secretKey with
  | .reject s c m i => (⟨s, none, some c, some m, i⟩, st)
  | .next => handleMcp sweep st hdrs body

/-!
## Theorems

### The bounded cache (claims C2, C3, C10)
-/

/-- The cache invariant maintained by every `getApiInstance` step: at
most 100 bindings, every key non-empty (every credential key contains
a colon, so the truthiness guard on the evicted key never blocks an
eviction). -/

def CacheInv (st : CacheState) : Prop :=
  st.entries.length ≤ 100 ∧ ∀ p ∈ st.entries, p.1 ≠ ""

theorem credentialKey_ne_empty (a : String) (e : Option String) :
    credentialKey a e ≠ "" := by
  intro h
  have hlen := congrArg String.length h
  have hc : (":" : String).length = 1 := rfl
  simp [credentialKey, String.length_append, hc] at hlen

theorem getApiInstance_hit (entries : List (String × Nat)) (nid : Nat)
    (a : String) (e : Option String) (h : Nat)
    (hl : lookupKey entries (credentialKey a e) = some h) :
    getApiInstance ⟨entries, nid⟩ a e = (h, ⟨entries, nid⟩) := by
  unfold getApiInstance
  simp [hl]

theorem getApiInstance_miss_small (entries : List (String × Nat)) (nid : Nat)
    (a : String) (e : Option String)
    (hl : lookupKey entries (credentialKey a e) = none)
    (hsz : entries.length + 1 ≤ 100) :
    getApiInstance ⟨entries, nid⟩ a e =
      (nid, ⟨entries ++ [(credentialKey a e, nid)], nid + 1⟩) := by
  unfold getApiInstance
  have hle : ¬ ((entries ++ [(credentialKey a e, nid)]).length > 100) := by
    simp
    omega
  simp [hl, hle]
  intro h100
  exact absurd h100 (by omega)

theorem getApiInstance_miss_evict (p1 : String) (p2 : Nat)
    (rest : List (String × Nat)) (nid : Nat) (a : String) (e : Option String)
    (hl : lookupKey ((p1, p2) :: rest) (credentialKey a e) = none)
    (hsz : rest.length + 2 > 100) (hp : p1 ≠ "") :
    getApiInstance ⟨(p1, p2) :: rest, nid⟩ a e =
      (nid, ⟨rest ++ [(credentialKey a e, nid)], nid + 1⟩) := by
  unfold getApiInstance
  have hgt : (((p1, p2) :: rest) ++ [(credentialKey a e, nid)]).length > 100 := by
    simp
    omega
  simp only [hl]
  rw [if_pos hgt]
  simp [hp, eraseKey]

theorem getApiInstance_preserves_inv :
    ∀ (st : CacheState) (a : String) (e : Option String),
      CacheInv st → CacheInv (getApiInstance st a e).2 := by
  rintro ⟨entries, nid⟩ a e ⟨hlen, hkeys⟩
  simp only [CacheInv] at *
  cases hl : lookupKey entries (credentialKey a e) with
  | some api =>
    rw [getApiInstance_hit entries nid a e api hl]
    exact ⟨hlen, hkeys⟩
  | none =>
    by_cases hsz : entries.length + 1 ≤ 100
    · rw [getApiInstance_miss_small entries nid a e hl hsz]
      refine ⟨by simpa using hsz, ?_⟩
      intro q hq
      rcases List.mem_append.mp hq with hq1 | hq2
      · exact hkeys q hq1
      · rcases List.mem_singleton.mp hq2 with rfl
        exact credentialKey_ne_empty a e
    · cases entries with
      | nil => simp at hsz
      | cons p rest =>
        obtain ⟨p1, p2⟩ := p
        have hp : p1 ≠ "" := hkeys (p1, p2) (List.mem_cons_self _ rest)
        have hsz2 : rest.length + 2 > 100 := by
          simp at hsz
          omega
        rw [getApiInstance_miss_evict p1 p2 rest nid a e hl hsz2 hp]
        constructor
        · have hr : rest.length + 1 ≤ 100 := by simpa using hlen
          simp
          omega
        · intro q hq
          rcases List.mem_append.mp hq with hq1 | hq2
          · exact hkeys q (List.mem_cons_of_mem _ hq1)
          · rcases List.mem_singleton.mp hq2 with rfl
            exact credentialKey_ne_empty a e

theorem runCalls_inv (calls : List (String × Option String)) :
    CacheInv (runCalls calls) := by
  have hstep : ∀ (cs : List (String × Option String)) (st : CacheState),
      CacheInv st →
      CacheInv (cs.foldl (fun st c => (getApiInstance st c.1 c.2).2) st) := by
    intro cs
    induction cs with
    | nil => intro st h; exact h
    | cons c cs ih =>
      intro st h
      exact ih _ (getApiInstance_preserves_inv st c.1 c.2 h)
  exact hstep _ initialCache ⟨by simp [initialCache], by simp [initialCache]⟩

/-- C2: for every sequence of getApiInstance calls (with arbitrary
(apiKey, endpoint) arguments, i.e. for any interleaving of tools/call
and tools/list traffic), the API client cache never holds more than
100 distinct CredentialKey entries after any call completes. -/
theorem C2_cache_never_exceeds_100 (calls : List (String × Option String)) :
    (runCalls calls).entries.length ≤ 100 :=
  (runCalls_inv calls).1


/-- A demonstration traffic sequence: the first credential is used
three times, then 100 distinct once-used credentials arrive. -/
def fifoDemoCalls : List (String × Option String) :=
  ("a", none) :: ("a", none) :: ("a", none) ::
    (List.range 100).map (fun i => (toString i, none))

/-- A concrete full cache holding 100 distinct credential keys. -/
def cache100 : CacheState :=
  ⟨(List.range 100).map (fun i => (toString i ++ ":default", i)), 100⟩

set_option maxRecDepth 4000

/-- C3: the cache eviction policy is insertion-order (FIFO): when
getApiInstance inserts a new entry and the cache then holds more than
100 entries, the entry evicted is the oldest-inserted one (the result
keeps the tail of the old insertion order plus the new entry at the
end), and a getApiInstance call that finds its key already present
returns the existing handle without changing the eviction order, so
for the concrete sequence fifoDemoCalls the thrice-used key of "a" is
evicted while the once-used, later-inserted key of "0" survives. -/
theorem C3_eviction_is_fifo :
    (∀ (entries : List (String × Nat)) (nid : Nat) (a : String)
        (e : Option String),
        (∀ q ∈ entries, q.1 ≠ "") → entries.length = 100 →
        lookupKey entries (credentialKey a e) = none →
        (getApiInstance ⟨entries, nid⟩ a e).2.entries
          = entries.tail ++ [(credentialKey a e, nid)]) ∧
    (∀ (st : CacheState) (a : String) (e : Option String) (h : Nat),
        lookupKey st.entries (credentialKey a e) = some h →
        getApiInstance st a e = (h, st)) ∧
    (lookupKey (runCalls fifoDemoCalls).entries
        (credentialKey "a" none) = none ∧
      lookupKey (runCalls fifoDemoCalls).entries
        (credentialKey "0" none) ≠ none) := by
  refine ⟨?_, ?_, by decide, by decide⟩
  · intro entries nid a e hkeys hlen hl
    cases entries with
    | nil => simp at hlen
    | cons p rest =>
      obtain ⟨p1, p2⟩ := p
      have hp : p1 ≠ "" := hkeys (p1, p2) (List.mem_cons_self _ rest)
      have hsz2 : rest.length + 2 > 100 := by
        simp at hlen
        omega
      rw [getApiInstance_miss_evict p1 p2 rest nid a e hl hsz2 hp]
      rfl
  · intro st a e h hl
    exact getApiInstance_hit st.entries st.nextId a e h hl

theorem C3_eviction_is_fifo_witness :
    (getApiInstance cache100 "x" none).2.entries
      = cache100.entries.tail ++ [("x:default", 100)] :=
  C3_eviction_is_fifo.1 cache100.entries 100 "x" none (by decide) (by decide)
    (by decide)

/-- C10: the CredentialKey is apiKey ++ ":" ++ (endpoint or
"default") and this derivation is not injective: the two distinct
credential pairs ("a:b", no endpoint) and ("a", endpoint
"b:default") share one key, so getApiInstance hands the second call
the instance created for the first. -/
theorem C10_credential_key_collision :
    credentialKey "a:b" none = credentialKey "a" (some "b:default") ∧
    ("a:b", (none : Option String)) ≠ ("a", (some "b:default" : Option String)) ∧
    (getApiInstance (getApiInstance initialCache "a:b" none).2 "a"
        (some "b:default")).1
      = (getApiInstance initialCache "a:b" none).1 :=
  ⟨rfl, by decide, rfl⟩

/-- C1 counterexample: with auth required, a non-empty secret key
"k", a tools/call body and the x-secret-key header present but
empty, the header differs from the secret key, yet the middleware
rejects with the "Authentication required" message, not the
"Invalid authentication" message the claim assigns to every present
mismatching header. -/
theorem C1_counterexample_empty_header :
    (authMiddleware true "k"
        (.obj [("method", .str "tools/call"), ("id", .num 7)])
        (some "")).errMsg
      = some "Authentication required for tool execution" ∧
    (authMiddleware true "k"
        (.obj [("method", .str "tools/call"), ("id", .num 7)])
        (some "")).errMsg
      ≠ some "Invalid authentication for tool execution" :=
  ⟨rfl, by decide⟩

/-- C1 (amended): for a POST /mcp body whose method is tools/call the
auth gate is a pure function of (requireAuth, secretKey, header): auth
not required allows; an empty configured secret allows; with a
non-empty secret a missing OR PRESENT-BUT-EMPTY header rejects 401 /
-32001 "Authentication required for tool execution"; a present
non-empty header that differs from the secret rejects 401 / -32001
"Invalid authentication for tool execution"; a header equal to the
secret allows. -/
theorem C1_auth_gate (requireAuth : Bool) (secretKey : String) (body : JSVal)
    (hdr : Option String)
    (hm : jsGet body "method" = .str "tools/call") :
    (requireAuth = false →
      authMiddleware requireAuth secretKey body hdr = .next) ∧
    (secretKey = "" → authMiddleware requireAuth secretKey body hdr = .next) ∧
    (requireAuth = true → secretKey ≠ "" → (hdr = none ∨ hdr = some "") →
      authMiddleware requireAuth secretKey body hdr
        = .reject 401 (-32001) "Authentication required for tool execution"
            (jsGet body "id")) ∧
    (∀ k, requireAuth = true → secretKey ≠ "" → hdr = some k → k ≠ "" →
      k ≠ secretKey →
      authMiddleware requireAuth secretKey body hdr
        = .reject 401 (-32001) "Invalid authentication for tool execution"
            (jsGet body "id")) ∧
    (requireAuth = true → secretKey ≠ "" → hdr = some secretKey →
      authMiddleware requireAuth secretKey body hdr = .next) := by
  have hs : strictEqStr (jsGet body "method") "tools/call" = true := by
    rw [hm]
    rfl
  refine ⟨?_, ?_, ?_, ?_, ?_⟩
  · intro h
    subst h
    rfl
  · intro h
    subst h
    cases requireAuth <;> rfl
  · intro h1 h2 h3
    subst h1
    rcases h3 with h3 | h3 <;> subst h3 <;> simp [authMiddleware, hs, h2]
  · intro k h1 h2 h3 h4 h5
    subst h1
    subst h3
    simp [authMiddleware, hs, h2, h4, h5]
  · intro h1 h2 h3
    subst h1
    subst h3
    simp [authMiddleware, hs, h2]

theorem C1_auth_gate_witness :
    authMiddleware true "k"
        (.obj [("method", .str "tools/call"), ("id", .num 3)]) none
      = .reject 401 (-32001) "Authentication required for tool execution"
          (jsGet (.obj [("method", .str "tools/call"), ("id", .num 3)]) "id") :=
  (C1_auth_gate true "k"
      (.obj [("method", .str "tools/call"), ("id", .num 3)]) none
      rfl).2.2.1 rfl (by decide) (Or.inl rfl)

/-!
### The JSON-RPC router (claims C4, C5, C6, C9)
-/

/-- C4 (amended): for every well-formed POST /mcp body every normal
dispatch path echoes the request id verbatim (including null, absent,
0 and ""), while the internal-error catch-all echoes the id only when
it is truthy and replaces a falsy id (0, "", false, null, absent) by
null. -/
theorem C4_id_echo :
    (∀ (sweep : Bool → List ToolDesc) (st : CacheState) (hdrs : Headers)
        (body : JSVal), truthy body = true → isObjTy body = true →
        (handleMcp sweep st hdrs body).1.id = jsGet body "id") ∧
    (∀ (body : JSVal) (msg : String), truthy (jsGet body "id") = true →
        (mcpCatchAll body msg).id = jsGet body "id") ∧
    (∀ (body : JSVal) (msg : String), truthy (jsGet body "id") = false →
        (mcpCatchAll body msg).id = .null) := by
  refine ⟨?_, ?_, ?_⟩
  · intro sweep st hdrs body h1 h2
    unfold handleMcp
    rw [h1, h2]
    simp only [Bool.not_true, Bool.or_self]
    rw [if_neg (by simp)]
    repeat first | rfl | split
  · intro body msg h
    unfold mcpCatchAll
    simp [jsOr, h, errOut]
  · intro body msg h
    unfold mcpCatchAll
    simp [jsOr, h, errOut]

/-- Witness for C4: the initialize path echoes the falsy id 0
verbatim. -/
theorem C4_id_echo_witness :
    (handleMcp (fun _ => []) initialCache ⟨none, none, none, none⟩
        (.obj [("method", .str "initialize"), ("id", .num 0)])).1.id
      = jsGet (.obj [("method", .str "initialize"), ("id", .num 0)]) "id" :=
  C4_id_echo.1 (fun _ => []) initialCache ⟨none, none, none, none⟩
    (.obj [("method", .str "initialize"), ("id", .num 0)]) rfl rfl

/-- C4 counterexample: the internal-error catch-all answers a request
with id 0 with id null, not id 0, because it computes the echoed id
as the JS disjunction of the request id with null. -/
theorem C4_counterexample_catch_all_zero_id :
    (mcpCatchAll (.obj [("jsonrpc", .str "2.0"), ("method", .str "tools/list"),
        ("id", .num 0)]) "boom").id = .null ∧
    (mcpCatchAll (.obj [("jsonrpc", .str "2.0"), ("method", .str "tools/list"),
        ("id", .num 0)]) "boom").id ≠ .num 0 :=
  ⟨rfl, fun h => JSVal.noConfusion h⟩

/-- C9 (amended): a parsed body that is falsy or not of JS object
type (null, a boolean, a number or a string) receives the ParseError
response: code -32700, id null, with the cache untouched.  (A parsed
array passes the well-formedness check instead; see the
counterexample.) -/
theorem C9_parse_error (sweep : Bool → List ToolDesc) (st : CacheState)
    (hdrs : Headers) (body : JSVal)
    (h : truthy body = false ∨ isObjTy body = false) :
    (handleMcp sweep st hdrs body).1
        = errOut (-32700) "Parse error: Invalid JSON" .null ∧
    (handleMcp sweep st hdrs body).2 = st := by
  have hcond : (!truthy body || !isObjTy body) = true := by
    rcases h with h | h <;> simp [h]
  unfold handleMcp
  rw [hcond]
  exact ⟨rfl, rfl⟩

/-- Witness for C9: a null body receives the ParseError response. -/
theorem C9_parse_error_witness :
    (handleMcp (fun _ => []) initialCache ⟨none, none, none, none⟩ .null).1
        = errOut (-32700) "Parse error: Invalid JSON" .null ∧
    (handleMcp (fun _ => []) initialCache ⟨none, none, none, none⟩ .null).2
        = initialCache :=
  C9_parse_error (fun _ => []) initialCache ⟨none, none, none, none⟩ .null
    (Or.inl rfl)

/-- C9 counterexample: an empty-array body is not a well-formed
object, yet it passes the router's typeof-object check (JS arrays
have typeof 'object') and falls through to MethodNotFound (-32601)
instead of ParseError (-32700). -/
theorem C9_counterexample_array_body :
    (handleMcp (fun _ => []) initialCache ⟨none, none, none, none⟩
        (.arr [])).1.errCode = some (-32601) ∧
    (handleMcp (fun _ => []) initialCache ⟨none, none, none, none⟩
        (.arr [])).1.errCode ≠ some (-32700) :=
  ⟨rfl, by decide⟩

/-- C5: a tools/call request whose x-smartsheet-api-key header is
absent is answered with the InvalidParams error -32602 and leaves the
cache unchanged — the handler returns before touching
getApiInstance. -/
theorem C5_missing_api_key (sweep : Bool → List ToolDesc)
    (st : CacheState) (hdrs : Headers) (body : JSVal)
    (h1 : truthy body = true) (h2 : isObjTy body = true)
    (h3 : jsGet body "method" = .str "tools/call")
    (h4 : hdrs.apiKey = none) :
    (handleMcp sweep st hdrs body).1.errCode = some (-32602) ∧
    (handleMcp sweep st hdrs body).1.errMsg
        = some "Missing required header: x-smartsheet-api-key" ∧
    (handleMcp sweep st hdrs body).2 = st := by
  unfold handleMcp
  rw [h1, h2, h3, h4]
  exact ⟨rfl, rfl, rfl⟩

/-- Witness for C5 at a concrete keyless tools/call request. -/
theorem C5_missing_api_key_witness :
    (handleMcp (fun _ => []) initialCache ⟨none, none, none, none⟩
        (.obj [("method", .str "tools/call"), ("id", .num 4)])).1.errCode
      = some (-32602) ∧
    (handleMcp (fun _ => []) initialCache ⟨none, none, none, none⟩
        (.obj [("method", .str "tools/call"), ("id", .num 4)])).1.errMsg
      = some "Missing required header: x-smartsheet-api-key" ∧
    (handleMcp (fun _ => []) initialCache ⟨none, none, none, none⟩
        (.obj [("method", .str "tools/call"), ("id", .num 4)])).2
      = initialCache :=
  C5_missing_api_key (fun _ => []) initialCache ⟨none, none, none, none⟩
    (.obj [("method", .str "tools/call"), ("id", .num 4)]) rfl rfl rfl rfl

/-- C6: a tools/call request that passes the credential check but
names a tool registered by no module is answered with InternalError
-32603 and the message "Tool execution error: Tool not found: "
followed by the requested name. -/
theorem C6_tool_not_found (sweep : Bool → List ToolDesc) (st : CacheState)
    (hdrs : Headers) (body : JSVal) (k n : String)
    (h1 : truthy body = true) (h2 : isObjTy body = true)
    (h3 : jsGet body "method" = .str "tools/call")
    (h4 : hdrs.apiKey = some k) (h5 : k ≠ "")
    (h6 : jsGet (jsOr (jsGet body "params") (.obj [])) "name" = .str n)
    (h7 : ∀ t ∈ sweep (hdrs.allowDelete == some "true"), t.name ≠ n) :
    (handleMcp sweep st hdrs body).1.errCode = some (-32603) ∧
    (handleMcp sweep st hdrs body).1.errMsg
        = some ("Tool execution error: Tool not found: " ++ n) := by
  have hfilter : (sweep (hdrs.allowDelete == some "true")).filter
      (fun t => strictEqStr (.str n) t.name) = [] := by
    rw [List.filter_eq_nil_iff]
    intro t ht
    simp only [strictEqStr, decide_eq_true_eq]
    exact fun hh => h7 t ht hh.symm
  have hmsg : ("Tool execution error: " : String) ++ ("Tool not found: " ++ n)
      = "Tool execution error: Tool not found: " ++ n := by
    rw [← String.append_assoc]
    rfl
  unfold handleMcp executeToolCall
  rw [h1, h2, h3, h4]
  simp only [Bool.not_true, Bool.or_self]
  rw [if_neg (by simp), if_neg h5, h6, hfilter]
  simp only [List.getLast?_nil, jsTemplate]
  rw [hmsg]
  exact ⟨rfl, rfl⟩

/-- Witness for C6: requesting "nonexistent_tool" against a sweep
registering only "get_sheet". -/
theorem C6_tool_not_found_witness :
    (handleMcp
        (fun _ => [⟨"get_sheet", "d", none, fun _ => .ok .null⟩])
        initialCache ⟨some "KEY", none, none, none⟩
        (.obj [("method", .str "tools/call"),
               ("params", .obj [("name", .str "nonexistent_tool"),
                                ("arguments", .obj [])]),
               ("id", .num 5)])).1.errCode = some (-32603) ∧
    (handleMcp
        (fun _ => [⟨"get_sheet", "d", none, fun _ => .ok .null⟩])
        initialCache ⟨some "KEY", none, none, none⟩
        (.obj [("method", .str "tools/call"),
               ("params", .obj [("name", .str "nonexistent_tool"),
                                ("arguments", .obj [])]),
               ("id", .num 5)])).1.errMsg
      = some ("Tool execution error: Tool not found: " ++ "nonexistent_tool") :=
  C6_tool_not_found
    (fun _ => [⟨"get_sheet", "d", none, fun _ => .ok .null⟩])
    initialCache ⟨some "KEY", none, none, none⟩
    (.obj [("method", .str "tools/call"),
           ("params", .obj [("name", .str "nonexistent_tool"),
                            ("arguments", .obj [])]),
           ("id", .num 5)])
    "KEY" "nonexistent_tool" rfl rfl rfl rfl (by decide) rfl
    (by
      intro t ht
      rcases List.mem_singleton.mp ht with rfl
      decide)

/-!
### Tool definition extraction (claims C7, C8)

The spec-side restatements (specFieldQualifies, specSchemaProperties,
specSchemaRequired) follow the words of the spec — "every schema
field exposing a description attribute becomes a required
string-typed property; all such fields are required" — and the C8
theorem proves the source-side projection equal to them.
-/

/-- The spec's wording of the projection test: the field value is an
object carrying a "description" attribute. -/
def specFieldQualifies : JSVal → Bool
  | .obj fs => (lookupField fs "description").isSome
  | _ => false

/-- The spec's wording of the projected properties: one string-typed
property per qualifying field, carrying that field's description. -/
def specSchemaProperties (fs : List (String × JSVal)) : List (String × JSVal) :=
  (fs.filter fun p => specFieldQualifies p.2).map
    fun p => (p.1, .obj [("type", .str "string"),
      ("description", jsGet p.2 "description")])

/-- The spec's wording of the required list: every qualifying field
name. -/
def specSchemaRequired (fs : List (String × JSVal)) : List String :=
  (fs.filter fun p => specFieldQualifies p.2).map fun p => p.1

/-- The code's duck-typed test (truthy, typeof object, has a
description key) coincides with the spec's wording on every JS
value. -/
theorem qualifies_eq_spec (v : JSVal) :
    qualifies v = specFieldQualifies v := by
  cases v <;>
    simp [qualifies, specFieldQualifies, truthy, isObjTy, hasKey]

/-- The entries loop with an arbitrary starting accumulator. -/
theorem schemaLoop_go (fs : List (String × JSVal))
    (a : List (String × JSVal)) (b : List String) :
    fs.foldl
      (fun acc kv =>
        if qualifies kv.2 then
          (acc.1 ++ [(kv.1, simplifiedProp kv.2)], acc.2 ++ [kv.1])
        else acc)
      (a, b)
    = (a ++ specSchemaProperties fs, b ++ specSchemaRequired fs) := by
  induction fs generalizing a b with
  | nil => simp [specSchemaProperties, specSchemaRequired]
  | cons kv rest ih =>
    by_cases hq : qualifies kv.2 = true
    · have hq2 : specFieldQualifies kv.2 = true := qualifies_eq_spec kv.2 ▸ hq
      simp only [List.foldl_cons, hq, if_pos]
      rw [ih]
      simp [specSchemaProperties, specSchemaRequired, List.filter_cons, hq2,
        simplifiedProp]
    · have hq2 : ¬ specFieldQualifies kv.2 = true := qualifies_eq_spec kv.2 ▸ hq
      simp only [List.foldl_cons, hq, if_neg, if_false]
      rw [ih]
      simp [specSchemaProperties, specSchemaRequired, List.filter_cons, hq2]

/-- The entries loop computes exactly the spec-side properties and
required lists. -/
theorem schemaLoop_eq_spec (fs : List (String × JSVal)) :
    schemaLoop fs = (specSchemaProperties fs, specSchemaRequired fs) := by
  unfold schemaLoop
  simpa using schemaLoop_go fs [] []

/-- C8: for a recorded descriptor carrying a schema object, the
projected inputSchema holds, for exactly the schema fields whose
value is an object with a description attribute, a string-typed
property carrying that description; every such field name appears in
the required list (dropped entirely when empty); everything else in
the schema is discarded. -/
theorem C8_schema_projection (fs : List (String × JSVal)) :
    projectSchema (some (.obj fs))
      = .obj ([("type", .str "object"),
               ("properties", .obj (specSchemaProperties fs))] ++
          (if specSchemaRequired fs = [] then []
           else [("required", .arr ((specSchemaRequired fs).map .str))])) ∧
    (∀ v : JSVal, qualifies v = specFieldQualifies v) := by
  refine ⟨?_, qualifies_eq_spec⟩
  unfold projectSchema
  simp only [Option.getD_some]
  rw [if_pos (by rfl)]
  simp only [objFields, schemaLoop_eq_spec]
  cases hreq : specSchemaRequired fs with
  | nil => simp
  | cons x xs => simp

/-- C7: getToolDefinitions never invokes any handler — its output is
a function of the registration surface (name, description, schema)
alone, so two sweeps with the same flag whose registrations agree on
that surface (in particular, two runs of the identical modules)
produce identical definition lists, whose names are the registered
names in registration order. -/
theorem C7_definitions_handler_free
    (sweep sweep2 : Bool → List ToolDesc) (flag : Bool)
    (h : (sweep flag).map surface = (sweep2 flag).map surface) :
    getToolDefinitions sweep flag = getToolDefinitions sweep2 flag ∧
    (getToolDefinitions sweep flag).map ToolDefinition.name
      = (sweep flag).map ToolDesc.name := by
  have hco : (fun s : String × String × Option JSVal =>
      (⟨s.1, s.2.1, projectSchema s.2.2⟩ : ToolDefinition)) ∘ surface
      = recordTool := by
    funext t
    rfl
  constructor
  · unfold getToolDefinitions
    rw [← hco, ← List.map_map, h, List.map_map]
  · unfold getToolDefinitions
    rw [List.map_map]
    rfl

/-- Witness for C7: two sweeps differing only in their handlers (one
resolves, one rejects) yield equal definition lists. -/
theorem C7_definitions_handler_free_witness :
    getToolDefinitions
        (fun _ => [⟨"t1", "d1",
          some (.obj [("a", .obj [("description", .str "x")])]),
          fun _ => .ok .null⟩]) true
      = getToolDefinitions
        (fun _ => [⟨"t1", "d1",
          some (.obj [("a", .obj [("description", .str "x")])]),
          fun _ => .error "boom"⟩]) true ∧
    (getToolDefinitions
        (fun _ => [⟨"t1", "d1",
          some (.obj [("a", .obj [("description", .str "x")])]),
          fun _ => .ok .null⟩]) true).map ToolDefinition.name
      = [⟨"t1", "d1",
          some (.obj [("a", .obj [("description", .str "x")])]),
          (fun _ => .ok .null : JSVal → Except String JSVal)⟩].map
            ToolDesc.name :=
  C7_definitions_handler_free
    (fun _ => [⟨"t1", "d1",
      some (.obj [("a", .obj [("description", .str "x")])]),
      fun _ => .ok .null⟩])
    (fun _ => [⟨"t1", "d1",
      some (.obj [("a", .obj [("description", .str "x")])]),
      fun _ => .error "boom"⟩])
    true rfl

end SmarMcp
